import Mathlib

/-!
Verification of the steam crawler (`src/main.rs`).

The program is a breadth-first crawler over product pages.  This file gives a
shallow embedding of its core:

* `parse_price` embeds the price-text parser at `main.rs:22-36`.  Rust `f32`
  values are modelled as `ℚ`: the decimal literals Rust's `f32::from_str`
  accepts are read exactly as rationals, and the non-finite literals
  (`inf`, `infinity`, `nan`) are modelled as parse failures (no claim
  distinguishes them).  Rust's Unicode `to_lowercase` is modelled by the
  ASCII case map, which agrees with it on every character the program
  compares against.
* `contribution`, `priceOf` and `workerOutcome` embed the per-page work of
  `crawl_id` (`main.rs:181-263`): a fetched document is abstracted as a
  `Page` carrying what the selectors extract (anchor-derived ids, the
  `.apphub_AppName` texts, the `.app_tag` texts and the
  `.game_purchase_action` elements).  The `HashSet` of discovered links is
  abstracted as the list in which its elements are appended to the frontier.
* `applyWorker` embeds the worker's mutations of the shared state, in the
  order the worker performs them (links are appended before the price step).
* `loopIter` embeds one iteration of the coordinator loop
  (`Crawler::crawl`, `main.rs:129-171`); the wall clock read by
  `started_at.elapsed()` is carried as a field of the state, and the
  100 ms sleep in the empty-frontier branch is abstracted as an iteration
  that changes nothing.  `SysStep` interleaves coordinator iterations with
  completions of in-flight workers.
* `drainThreads` and `mainEmit` embed the join loop at `main.rs:173-175`
  and the tail of `main` (`main.rs:282-299`).
-/

/-- Identifier of a product; `u32` in the source.  No arithmetic is ever
performed on identifiers, so they are modelled as `ℕ`. -/
abbrev AppId := Nat

/-- ASCII model of Rust's `str::to_lowercase` (`main.rs:23`). -/
def rustToLowercase (s : String) : String :=
  String.mk (s.toList.map Char.toLower)

/-- Model of Rust's `str::starts_with` (`main.rs:24`). -/
def rustStartsWith (s pat : String) : Bool :=
  pat.toList.isPrefixOf s.toList

/-- Substring occurrence test on character lists. -/
def containsSeq (pat : List Char) : List Char → Bool
  | [] => pat.isEmpty
  | c :: rest => pat.isPrefixOf (c :: rest) || containsSeq pat rest

/-- Model of Rust's `str::contains` for string patterns (`main.rs:24`). -/
def rustContains (s pat : String) : Bool :=
  containsSeq pat.toList s.toList

/-- Value of a string of decimal digits. -/
def digitsToNat (l : List Char) : ℕ :=
  l.foldl (fun acc c => acc * 10 + (c.toNat - 48)) 0

/-- Every character is a decimal digit. -/
def allDigits (l : List Char) : Bool :=
  l.all (fun c => c.isDigit)

/-- Characters before the decimal point. -/
def intPart (l : List Char) : List Char :=
  l.takeWhile (fun c => c != '.')

/-- Characters after the first decimal point (empty when there is none). -/
def fracPart (l : List Char) : List Char :=
  (l.dropWhile (fun c => c != '.')).tail

/-- Whether the character list contains a decimal point. -/
def hasDot (l : List Char) : Bool :=
  !(l.dropWhile (fun c => c != '.')).isEmpty

/-- Exact rational value of a decimal mantissa `ip . fp`. -/
def mantissaVal (ip fp : List Char) : ℚ :=
  (digitsToNat ip : ℚ) + (digitsToNat fp : ℚ) / (10 : ℚ) ^ fp.length

/-- Validity of a mantissa under the grammar of Rust's `f32::from_str`:
`Digits ['.' [Digits]] | '.' Digits`, with no second point. -/
def mantissaOk (l : List Char) : Bool :=
  (!(intPart l).isEmpty || (hasDot l && !(fracPart l).isEmpty))
    && allDigits (intPart l) && allDigits (fracPart l)
    && !(fracPart l).contains ('.')

/-- Parse a decimal mantissa to its exact rational value. -/
def parseMantissa (l : List Char) : Option ℚ :=
  if mantissaOk l then some (mantissaVal (intPart l) (fracPart l)) else none

/-- Nonempty digit string, as required after an exponent marker. -/
def expDigits (l : List Char) : Bool :=
  !l.isEmpty && allDigits l

/-- Parse the optionally signed digits of an exponent. -/
def parseExp (l : List Char) : Option ℤ :=
  if l.head? = some ('+') then
    if expDigits l.tail then some ((digitsToNat l.tail : ℤ)) else none
  else if l.head? = some ('-') then
    if expDigits l.tail then some (-((digitsToNat l.tail : ℤ))) else none
  else
    if expDigits l then some ((digitsToNat l : ℤ)) else none

/-- Characters of the mantissa, before any exponent marker. -/
def mantissaPart (l : List Char) : List Char :=
  l.takeWhile (fun c => c != 'e' && c != 'E')

/-- The exponent marker and what follows it (empty when there is none). -/
def expPart (l : List Char) : List Char :=
  l.dropWhile (fun c => c != 'e' && c != 'E')

/-- Parse an unsigned `f32` literal, `Mantissa [('e'|'E') Exp]`, to its exact
rational value. -/
def parseUnsignedF32 (l : List Char) : Option ℚ :=
  if (expPart l).isEmpty then parseMantissa (mantissaPart l)
  else
    (parseMantissa (mantissaPart l)).bind (fun m =>
      (parseExp (expPart l).tail).map (fun z => m * (10 : ℚ) ^ z))

/-- Model of Rust's `f32::from_str` (`str::parse::<f32>()`, `main.rs:34`) on
finite decimal literals: an optional sign followed by an unsigned literal.
The non-finite literals are modelled as parse failures. -/
def rustParseF32Chars (l : List Char) : Option ℚ :=
  if l.head? = some ('+') then parseUnsignedF32 l.tail
  else if l.head? = some ('-') then (parseUnsignedF32 l.tail).map (fun q => -q)
  else parseUnsignedF32 l

/-- The text rewriting of `main.rs:27-32`: `,` replaced by `.`, every `-`
removed, and everything from the first `€` on dropped. -/
def normalizePriceText (l : List Char) : List Char :=
  ((l.map (fun c => if c = ',' then '.' else c)).filter (fun c => c != '-')).takeWhile
    (fun c => c != '€')

/-- The free-or-demo test of `main.rs:24` on the lowercased text. -/
def freeText (lp : String) : Bool :=
  rustStartsWith lp ("free") || rustContains lp ("play with firefly")
    || rustContains lp ("demo")

/-- Embedding of `parse_price` (`main.rs:22-36`). -/
def parse_price (price : String) : ℚ :=
  if freeText (rustToLowercase price) then 0
  else (rustParseF32Chars (normalizePriceText (rustToLowercase price).toList)).getD 0

/-- The record built per crawled product (`struct App`, `main.rs:68-75`). -/
structure App where
  id : AppId
  name : String
  tags : List String
  price : ℚ
deriving DecidableEq

/-- One `.game_purchase_action` element: its HTML `id` attribute and the
inner texts of its `.price` descendants (`main.rs:226-241`). -/
structure PurchaseAction where
  elemId : Option String
  priceTexts : List String
deriving DecidableEq

/-- What the selectors of `crawl_id` extract from a fetched document. -/
structure Page where
  links : List AppId
  nameElems : List String
  tags : List String
  purchaseActions : List PurchaseAction
deriving DecidableEq

/-- Per-purchase-option price (the closure at `main.rs:230-241`): a DLC
purchase action contributes `0.0`; otherwise the first `.price` descendant's
text is parsed, and `0.0` is used when there is none. -/
def contribution (a : PurchaseAction) : ℚ :=
  if a.elemId = some ("dlc_purchase_action") then 0
  else
    match a.priceTexts.head? with
    | some t => parse_price t
    | none => 0

/-- Model of `Iterator::max_by` under a total order (`main.rs:242`): `none`
on an empty iterator, otherwise the maximum.  On `ℚ` the `partial_cmp` the
source uses is total, so the `unwrap_or(Equal)` fallback never fires. -/
def listMax : List ℚ → Option ℚ
  | [] => none
  | q :: qs => some (qs.foldl max q)

/-- The product price computed at `main.rs:228-242`. -/
def priceOf (page : Page) : Option ℚ :=
  listMax (page.purchaseActions.map contribution)

/-- How a worker's page processing ends: a recorded `App`, a skip
(`main.rs:244-248`), or a crash of the worker thread when the `unwrap` at
`main.rs:255` is reached with no name element present. -/
inductive WorkerResult
  | recorded (a : App)
  | skipped
  | panicked
deriving DecidableEq

/-- Outcome of `crawl_id`'s page processing (`main.rs:228-262`). -/
def workerOutcome (id : AppId) (page : Page) : WorkerResult :=
  match priceOf page with
  | none => .skipped
  | some p =>
    match page.nameElems.head? with
    | none => .panicked
    | some name => .recorded ⟨id, name, page.tags.filter (fun t => t != "+"), p⟩

/-- The shared crawler state (`struct Crawler`, `main.rs:106-112`), plus the
value of `started_at.elapsed()` as read by the coordinator. -/
structure CoordState where
  ids : List AppId
  should_not_crawl : List AppId
  apps : List App
  elapsed : ℕ
deriving DecidableEq

/-- Model of `HashSet::insert` under the derived `PartialEq` of `App`
(`main.rs:261`): a duplicate of a present record is dropped. -/
def hashInsert (apps : List App) (a : App) : List App :=
  if a ∈ apps then apps else apps ++ [a]

/-- The state mutations a completing worker applies (`main.rs:216-262`), in
source order: discovered links are appended to the frontier first, then the
price step records either a skip or an `App`; a crash at the name `unwrap`
leaves only the link append behind. -/
def applyWorker (id : AppId) (page : Page) (s : CoordState) : CoordState :=
  match workerOutcome id page with
  | .skipped =>
    { s with ids := s.ids ++ page.links,
             should_not_crawl := s.should_not_crawl ++ [id] }
  | .recorded a =>
    { s with ids := s.ids ++ page.links, apps := hashInsert s.apps a }
  | .panicked => { s with ids := s.ids ++ page.links }

/-- The `app_known` read at `main.rs:134/147`. -/
def appKnown (apps : List App) (id : AppId) : Bool :=
  apps.any (fun app => app.id == id)

/-- The stopping policy (`enum TimeOrCount`, `main.rs:63-66`); the duration
is in the same abstract clock units as `CoordState.elapsed`. -/
inductive TimeOrCount
  | time (d : ℕ)
  | count (n : ℕ)

/-- Result of one iteration of the coordinator loop: continue (optionally
having spawned a fetch for an id) or leave the loop. -/
inductive LoopIter
  | cont (s : CoordState) (o : Option AppId)
  | brk (s : CoordState)
deriving DecidableEq

/-- Whether the iteration left the loop. -/
def LoopIter.isBrk : LoopIter → Bool
  | .brk _ => true
  | .cont _ _ => false

/-- The id dispatched to a fetch worker by the iteration, if any. -/
def LoopIter.disp : LoopIter → Option AppId
  | .brk _ => none
  | .cont _ o => o

/-- One iteration of the coordinator loop (`main.rs:129-171`).  A popped id
is dispatched exactly when the policy bound and the two membership reads
admit it; the iteration continues either way.  With an empty frontier the
`Count` arm sleeps and retries below the target and leaves the loop at the
target; the `Time` arm falls through and iterates again. -/
def loopIter (toc : TimeOrCount) (s : CoordState) : LoopIter :=
  match s.ids with
  | [] =>
    match toc with
    | .time _ => .cont s none
    | .count n => if s.apps.length < n then .cont s none else .brk s
  | id :: rest =>
    match toc with
    | .time d =>
      .cont { s with ids := rest }
        (if decide (s.elapsed < d) && !appKnown s.apps id
            && !s.should_not_crawl.contains id
         then some id else none)
    | .count n =>
      .cont { s with ids := rest }
        (if decide (s.apps.length < n) && !appKnown s.apps id
            && !s.should_not_crawl.contains id
         then some id else none)

/-- The crawl as a whole: the coordinator state, the in-flight fetches
(spawned threads that have not finished, with the page each fetch will
return), and the history of ids handed to fetches. -/
structure SysState where
  coord : CoordState
  inflight : List (AppId × Page)
  hist : List AppId
deriving DecidableEq

/-- Interleaved execution of the crawl: either the coordinator runs one
loop iteration (a spawned fetch becomes in-flight), or an in-flight worker
finishes and applies its state mutations. -/
inductive SysStep (toc : TimeOrCount) : SysState → SysState → Prop
  | coordSpawn (s : SysState) (c' : CoordState) (id : AppId) (page : Page) :
      loopIter toc s.coord = .cont c' (some id) →
      SysStep toc s ⟨c', s.inflight ++ [(id, page)], s.hist ++ [id]⟩
  | coordPass (s : SysState) (c' : CoordState) :
      loopIter toc s.coord = .cont c' none →
      SysStep toc s ⟨c', s.inflight, s.hist⟩
  | workerDone (s : SysState) (pre post : List (AppId × Page)) (id : AppId) (page : Page) :
      s.inflight = pre ++ (id, page) :: post →
      SysStep toc s ⟨applyWorker id page s.coord, pre ++ post, s.hist⟩

/-- A transport failure returned by `ureq` (`main.rs:188-194`). -/
structure TransportError where
  msg : String
deriving DecidableEq

/-- The fetch boundary of `crawl_id` (`main.rs:188-194`): a transport error
is returned to the joiner with the shared state untouched; a fetched page is
processed as above. -/
def crawl_id_run (id : AppId) (fetched : Except TransportError Page) (s : CoordState) :
    CoordState × Except TransportError WorkerResult :=
  match fetched with
  | .error e => (s, .error e)
  | .ok page => (applyWorker id page s, .ok (workerOutcome id page))

/-- The join loop at `main.rs:173-175`: worker results are joined in order
and the first error is returned from `crawl`. -/
def drainThreads : List (Except TransportError Unit) → Except TransportError Unit
  | [] => .ok ()
  | .ok _ :: rest => drainThreads rest
  | .error e :: _ => .error e

/-- The output format selector (`main.rs:57-61`). -/
inductive OutputFormat
  | json
  | csv

/-- The records serialized by `main` (`main.rs:286-299`): the JSON arm
serializes the whole list, the CSV (and default) arm serializes every
element; either way all accumulated records are emitted. -/
def emittedApps (resApps : List App) (fmt : Option OutputFormat) : List App :=
  match fmt with
  | some .json => resApps
  | some .csv => resApps
  | none => resApps

/-- The tail of `main` (`main.rs:282-299`): a failed crawl produces the
incomplete-data warning, and the accumulated records are emitted in every
case.  The returned pair is (warning issued, records emitted). -/
def mainEmit (crawlRes : Except TransportError Unit) (resApps : List App)
    (fmt : Option OutputFormat) : Bool × List App :=
  match crawlRes with
  | .error _ => (true, emittedApps resApps fmt)
  | .ok _ => (false, emittedApps resApps fmt)

/-! ### Helper lemmas -/

lemma mem_of_mem_takeWhile {p : Char → Bool} :
    ∀ {l : List Char} {a : Char}, a ∈ l.takeWhile p → a ∈ l := by
  intro l
  induction l with
  | nil => intro a h; simp at h
  | cons c cs ih =>
    intro a h
    by_cases hc : p c = true
    · rw [List.takeWhile_cons, if_pos hc] at h
      rcases List.mem_cons.mp h with rfl | h
      · exact List.mem_cons_self _ _
      · exact List.mem_cons_of_mem _ (ih h)
    · rw [List.takeWhile_cons, if_neg hc] at h
      simp at h

lemma minus_notMem_normalize (l : List Char) : ('-') ∉ normalizePriceText l := by
  intro hm
  have h1 := mem_of_mem_takeWhile hm
  have h2 := (List.mem_filter.mp h1).2
  simp at h2

lemma mantissaVal_nonneg (ip fp : List Char) : 0 ≤ mantissaVal ip fp := by
  unfold mantissaVal
  positivity

lemma parseMantissa_nonneg {l : List Char} {q : ℚ} (h : parseMantissa l = some q) :
    0 ≤ q := by
  unfold parseMantissa at h
  by_cases hb : mantissaOk l = true
  · rw [if_pos hb] at h
    rw [← Option.some.inj h]
    exact mantissaVal_nonneg _ _
  · rw [if_neg hb] at h
    exact absurd h (by simp)

lemma parseUnsignedF32_nonneg {l : List Char} {q : ℚ}
    (h : parseUnsignedF32 l = some q) : 0 ≤ q := by
  unfold parseUnsignedF32 at h
  by_cases he : (expPart l).isEmpty = true
  · rw [if_pos he] at h
    exact parseMantissa_nonneg h
  · rw [if_neg he] at h
    rcases hb : parseMantissa (mantissaPart l) with _ | m
    · rw [hb] at h; simp at h
    · rw [hb] at h
      rcases hz : parseExp (expPart l).tail with _ | z
      · rw [hz] at h; simp at h
      · rw [hz] at h
        have h' : m * (10 : ℚ) ^ z = q := by simpa using h
        rw [← h']
        exact mul_nonneg (parseMantissa_nonneg hb) (zpow_nonneg (by norm_num) z)

lemma rustParseF32Chars_nonneg {l : List Char} {q : ℚ}
    (hm : ('-') ∉ l) (h : rustParseF32Chars l = some q) : 0 ≤ q := by
  unfold rustParseF32Chars at h
  by_cases h1 : l.head? = some ('+')
  · rw [if_pos h1] at h
    exact parseUnsignedF32_nonneg h
  · rw [if_neg h1] at h
    by_cases h2 : l.head? = some ('-')
    · exfalso
      cases l with
      | nil => simp at h2
      | cons c cs =>
        have hc : c = '-' := by simpa using h2
        exact hm (hc ▸ List.mem_cons_self _ _)
    · rw [if_neg h2] at h
      exact parseUnsignedF32_nonneg h

lemma foldl_max_init_le (qs : List ℚ) : ∀ a : ℚ, a ≤ qs.foldl max a := by
  induction qs with
  | nil => intro a; simp
  | cons y ys ih =>
    intro a
    rw [List.foldl_cons]
    exact le_trans (le_max_left a y) (ih (max a y))

lemma foldl_max_le_of_mem (qs : List ℚ) :
    ∀ (a x : ℚ), x ∈ qs → x ≤ qs.foldl max a := by
  induction qs with
  | nil => intro a x h; simp at h
  | cons y ys ih =>
    intro a x hx
    rw [List.foldl_cons]
    rcases List.mem_cons.mp hx with rfl | h
    · exact le_trans (le_max_right a x) (foldl_max_init_le ys _)
    · exact ih _ _ h

lemma foldl_max_attained (qs : List ℚ) :
    ∀ a : ℚ, qs.foldl max a = a ∨ qs.foldl max a ∈ qs := by
  induction qs with
  | nil => intro a; left; rfl
  | cons y ys ih =>
    intro a
    rw [List.foldl_cons]
    rcases ih (max a y) with h | h
    · rcases max_choice a y with hm | hm
      · left; rw [h, hm]
      · right; rw [h, hm]; exact List.mem_cons_self _ _
    · right; exact List.mem_cons_of_mem _ h

/-! ### Claims -/

set_option maxRecDepth 8000

/-- Claim C1.  The claim says each identifier is dispatched to a fetch at
most once because the coordinator re-checks admission before dispatch.  The
check at `main.rs:147-149` reads only completed results and skips, so with
the frontier holding 7 twice and the first fetch of 7 still in flight, two
consecutive coordinator iterations both dispatch 7: the dispatch history of
the second reached state is `[7, 7]`. -/
theorem dispatch_not_atomic_double_fetch :
    SysStep (.count 10) ⟨⟨[7, 7], [], [], 0⟩, [], []⟩
      ⟨⟨[7], [], [], 0⟩, [(7, ⟨[], [], [], []⟩)], [7]⟩ ∧
    SysStep (.count 10) ⟨⟨[7], [], [], 0⟩, [(7, ⟨[], [], [], []⟩)], [7]⟩
      ⟨⟨[], [], [], 0⟩, [(7, ⟨[], [], [], []⟩), (7, ⟨[], [], [], []⟩)], [7, 7]⟩ := by
  constructor
  · exact SysStep.coordSpawn _ ⟨[7], [], [], 0⟩ 7 ⟨[], [], [], []⟩ (by decide)
  · exact SysStep.coordSpawn _ ⟨[], [], [], 0⟩ 7 ⟨[], [], [], []⟩ (by decide)

/-- Claim C2.  Under a `Time` stopping policy no iteration of the
coordinator loop ever leaves the loop (the only `break` in `main.rs:129-171`
is in the `Count` arm), so `crawl` never reaches the drain phase and never
returns; and once the elapsed time has reached the deadline no iteration
dispatches a fetch. -/
theorem time_policy_loop_never_breaks :
    (∀ (d : ℕ) (s : CoordState), (loopIter (.time d) s).isBrk = false) ∧
    (∀ (d : ℕ) (s : CoordState), d ≤ s.elapsed → (loopIter (.time d) s).disp = none) := by
  constructor
  · intro d s
    rcases s with ⟨ids, snc, apps, e⟩
    cases ids with
    | nil => rfl
    | cons id rest => rfl
  · intro d s hd
    rcases s with ⟨ids, snc, apps, e⟩
    cases ids with
    | nil => rfl
    | cons id rest =>
      simp only [loopIter, LoopIter.disp]
      rw [decide_eq_false (by simpa using Nat.not_lt.mpr hd)]
      simp

/-- Claim C2, witness. -/
theorem time_policy_loop_never_breaks_witness :
    (loopIter (.time 1) ⟨[], [], [], 5⟩).isBrk = false ∧
    (loopIter (.time 1) ⟨[9], [], [], 5⟩).disp = none :=
  ⟨time_policy_loop_never_breaks.1 1 ⟨[], [], [], 5⟩,
   time_policy_loop_never_breaks.2 1 ⟨[9], [], [], 5⟩ (by decide)⟩

/-- Claim C3.  On a page that has a purchase-option element (so the price
step yields a value) but no name element, the worker reaches the `unwrap` at
`main.rs:255` on an empty selection and crashes instead of recording a
skip. -/
theorem missing_name_element_crashes :
    workerOutcome 5 ⟨[], [], [], [⟨none, [("4.99")]⟩]⟩ = WorkerResult.panicked ∧
    workerOutcome 5 ⟨[], [], [], [⟨none, [("4.99")]⟩]⟩ ≠ WorkerResult.skipped := by
  constructor
  · with_unfolding_all decide
  · with_unfolding_all decide

/-- Claim C4.  Under `Count n`: an iteration that sees `n` or more results
dispatches nothing; with an empty frontier below the target the iteration
sleeps and continues unchanged; with an empty frontier at the target it
leaves the loop; and an iteration leaves the loop only with an empty
frontier at the target (`main.rs:145-171`). -/
theorem count_policy_admission :
    (∀ (n : ℕ) (s : CoordState), n ≤ s.apps.length →
      (loopIter (.count n) s).disp = none) ∧
    (∀ (n : ℕ) (s : CoordState), s.ids = [] → s.apps.length < n →
      loopIter (.count n) s = .cont s none) ∧
    (∀ (n : ℕ) (s : CoordState), s.ids = [] → n ≤ s.apps.length →
      loopIter (.count n) s = .brk s) ∧
    (∀ (n : ℕ) (s : CoordState), (loopIter (.count n) s).isBrk = true →
      s.ids = [] ∧ n ≤ s.apps.length) := by
  refine ⟨?_, ?_, ?_, ?_⟩
  · intro n s hn
    rcases s with ⟨ids, snc, apps, e⟩
    simp only at hn
    cases ids with
    | nil =>
      simp only [loopIter]
      rw [if_neg (Nat.not_lt.mpr hn)]
      rfl
    | cons id rest =>
      simp only [loopIter, LoopIter.disp]
      rw [decide_eq_false (Nat.not_lt.mpr hn)]
      simp
  · intro n s h1 h2
    rcases s with ⟨ids, snc, apps, e⟩
    simp only at h1 h2
    subst h1
    simp only [loopIter]
    rw [if_pos h2]
  · intro n s h1 h2
    rcases s with ⟨ids, snc, apps, e⟩
    simp only at h1 h2
    subst h1
    simp only [loopIter]
    rw [if_neg (Nat.not_lt.mpr h2)]
  · intro n s hb
    rcases s with ⟨ids, snc, apps, e⟩
    cases ids with
    | nil =>
      simp only [loopIter] at hb
      by_cases hl : apps.length < n
      · rw [if_pos hl] at hb
        simp [LoopIter.isBrk] at hb
      · exact ⟨rfl, Nat.not_lt.mp hl⟩
    | cons id rest =>
      simp only [loopIter] at hb
      simp [LoopIter.isBrk] at hb

/-- Claim C4, witness. -/
theorem count_policy_admission_witness :
    (loopIter (.count 0) ⟨[3], [], [], 0⟩).disp = none ∧
    loopIter (.count 1) ⟨[], [], [], 0⟩ = .cont ⟨[], [], [], 0⟩ none ∧
    loopIter (.count 0) ⟨[], [], [], 0⟩ = .brk ⟨[], [], [], 0⟩ ∧
    ([] = ([] : List AppId) ∧ 0 ≤ ([] : List App).length) :=
  ⟨count_policy_admission.1 0 ⟨[3], [], [], 0⟩ (by decide),
   count_policy_admission.2.1 1 ⟨[], [], [], 0⟩ rfl (by decide),
   count_policy_admission.2.2.1 0 ⟨[], [], [], 0⟩ rfl (by decide),
   count_policy_admission.2.2.2 0 ⟨[], [], [], 0⟩ (by decide)⟩

/-- Claim C5.  A transport error is returned by the worker with the shared
state untouched; the join loop propagates the first worker error out of
`crawl`; and `main` then issues the incomplete-data warning while still
emitting every record accumulated so far (`main.rs:188-194, 173-175,
282-299`). -/
theorem transport_error_partial_results :
    (∀ (id : AppId) (e : TransportError) (s : CoordState),
      crawl_id_run id (.error e) s = (s, .error e)) ∧
    (∀ (pre post : List (Except TransportError Unit)) (e : TransportError),
      (∀ r ∈ pre, r = .ok ()) →
      drainThreads (pre ++ .error e :: post) = .error e) ∧
    (∀ (res : Except TransportError Unit) (resApps : List App)
        (fmt : Option OutputFormat) (e : TransportError),
      res = .error e → mainEmit res resApps fmt = (true, resApps)) := by
  refine ⟨?_, ?_, ?_⟩
  · intro id e s
    rfl
  · intro pre post e
    induction pre with
    | nil => intro _; rfl
    | cons r rest ih =>
      intro hpre
      have hr : r = Except.ok () := hpre r (List.mem_cons_self _ _)
      subst hr
      exact ih (fun x hx => hpre x (List.mem_cons_of_mem _ hx))
  · intro res resApps fmt e h
    subst h
    cases fmt with
    | none => rfl
    | some f => cases f <;> rfl

/-- Claim C5, witness. -/
theorem transport_error_partial_results_witness :
    crawl_id_run 400 (.error ⟨"connection timed out"⟩) ⟨[], [], [], 0⟩
      = (⟨[], [], [], 0⟩, .error ⟨"connection timed out"⟩) ∧
    drainThreads [.ok (), .error ⟨"connection timed out"⟩]
      = .error ⟨"connection timed out"⟩ ∧
    mainEmit (.error ⟨"connection timed out"⟩) [⟨400, ("Portal"), [], 0⟩]
      (some OutputFormat.json) = (true, [⟨400, ("Portal"), [], 0⟩]) :=
  ⟨transport_error_partial_results.1 400 ⟨"connection timed out"⟩ ⟨[], [], [], 0⟩,
   transport_error_partial_results.2.1 [.ok ()] [] ⟨"connection timed out"⟩
     (by simp),
   transport_error_partial_results.2.2 _ [⟨400, ("Portal"), [], 0⟩]
     (some OutputFormat.json) ⟨"connection timed out"⟩ rfl⟩

/-- Claim C6.  On every page with at least one purchase-option element the
computed price is the maximum of the per-option contributions — it is an
upper bound of them and is attained by one of them — and on a page with two
non-DLC options whose texts read 12.50 and 9.99 the price is 12.50
(`main.rs:228-242`). -/
theorem price_is_max_of_contributions :
    (∀ page : Page, page.purchaseActions ≠ [] →
      ∃ q, priceOf page = some q ∧
        (∀ a ∈ page.purchaseActions, contribution a ≤ q) ∧
        (∃ a ∈ page.purchaseActions, contribution a = q)) ∧
    priceOf ⟨[], [("G")], [], [⟨none, [("12.50")]⟩, ⟨none, [("9.99")]⟩]⟩
      = some (25/2) := by
  constructor
  · intro page hne
    obtain ⟨lk, nm, tg, pas⟩ := page
    cases pas with
    | nil => exact absurd rfl hne
    | cons p ps =>
      refine ⟨(ps.map contribution).foldl max (contribution p), rfl, ?_, ?_⟩
      · intro a ha
        rcases List.mem_cons.mp ha with rfl | h
        · exact foldl_max_init_le _ _
        · exact foldl_max_le_of_mem _ _ _ (List.mem_map_of_mem _ h)
      · rcases foldl_max_attained (ps.map contribution) (contribution p) with h | h
        · exact ⟨p, List.mem_cons_self _ _, h.symm⟩
        · obtain ⟨a, ha, hc⟩ := List.mem_map.mp h
          exact ⟨a, List.mem_cons_of_mem _ ha, hc⟩
  · with_unfolding_all decide

/-- Claim C6, witness. -/
theorem price_is_max_of_contributions_witness :
    ∃ q, priceOf ⟨[], [("G")], [], [⟨none, [("12.50")]⟩, ⟨none, [("9.99")]⟩]⟩
        = some q ∧
      (∀ a ∈ [(⟨none, [("12.50")]⟩ : PurchaseAction), ⟨none, [("9.99")]⟩],
        contribution a ≤ q) ∧
      (∃ a ∈ [(⟨none, [("12.50")]⟩ : PurchaseAction), ⟨none, [("9.99")]⟩],
        contribution a = q) :=
  price_is_max_of_contributions.1
    ⟨[], [("G")], [], [⟨none, [("12.50")]⟩, ⟨none, [("9.99")]⟩]⟩ (by simp)

/-- Claim C7.  A DLC purchase action contributes exactly `0.0` whatever its
text; a lowercased text starting with `free` or containing `demo` parses to
`0.0`; when the free test fails and the rewritten text fails to parse the
result is `0.0` rather than an error; and `parse_price` maps `Free` to `0`
and `19,99€` to `19.99` (`main.rs:22-36, 230-241`). -/
theorem parse_price_branches :
    (∀ a : PurchaseAction, a.elemId = some ("dlc_purchase_action") →
      contribution a = 0) ∧
    (∀ t : String, rustStartsWith (rustToLowercase t) ("free") = true →
      parse_price t = 0) ∧
    (∀ t : String, rustContains (rustToLowercase t) ("demo") = true →
      parse_price t = 0) ∧
    (∀ t : String,
      rustParseF32Chars (normalizePriceText (rustToLowercase t).toList) = none →
      parse_price t = 0) ∧
    parse_price ("Free") = 0 ∧
    parse_price ("19,99€") = 1999/100 := by
  refine ⟨?_, ?_, ?_, ?_, ?_, ?_⟩
  · intro a h
    unfold contribution
    rw [if_pos h]
  · intro t h
    have hf : freeText (rustToLowercase t) = true := by
      unfold freeText
      rw [h]
      simp
    unfold parse_price
    rw [if_pos hf]
  · intro t h
    have hf : freeText (rustToLowercase t) = true := by
      unfold freeText
      rw [h]
      simp
    unfold parse_price
    rw [if_pos hf]
  · intro t h
    unfold parse_price
    by_cases hf : freeText (rustToLowercase t) = true
    · rw [if_pos hf]
    · rw [if_neg hf, h]
      rfl
  · with_unfolding_all decide
  · with_unfolding_all decide

/-- Claim C7, witness. -/
theorem parse_price_branches_witness :
    contribution ⟨some ("dlc_purchase_action"), [("19,99€")]⟩ = 0 ∧
    parse_price ("FREE to play") = 0 ∧
    parse_price ("Epic Demo") = 0 ∧
    parse_price ("unparseable") = 0 :=
  ⟨parse_price_branches.1 ⟨some ("dlc_purchase_action"), [("19,99€")]⟩ rfl,
   parse_price_branches.2.1 ("FREE to play") (by decide),
   parse_price_branches.2.2.1 ("Epic Demo") (by decide),
   parse_price_branches.2.2.2.1 ("unparseable") (by decide)⟩

/-- Claim C8.  A page with no purchase-option element at all yields no
price, so the worker records the id in the skip list and returns without
touching the result set (`main.rs:244-248`). -/
theorem no_purchase_options_recorded_skip :
    ∀ (id : AppId) (page : Page) (s : CoordState), page.purchaseActions = [] →
      workerOutcome id page = WorkerResult.skipped ∧
      (applyWorker id page s).should_not_crawl = s.should_not_crawl ++ [id] ∧
      (applyWorker id page s).apps = s.apps := by
  intro id page s h
  have hw : workerOutcome id page = WorkerResult.skipped := by
    unfold workerOutcome priceOf
    rw [h]
    rfl
  refine ⟨hw, ?_, ?_⟩ <;> simp [applyWorker, hw]

/-- Claim C8, witness. -/
theorem no_purchase_options_recorded_skip_witness :
    workerOutcome 77 ⟨[78], [("Game")], [], []⟩ = WorkerResult.skipped ∧
    (applyWorker 77 ⟨[78], [("Game")], [], []⟩ ⟨[], [], [], 0⟩).should_not_crawl
      = [77] ∧
    (applyWorker 77 ⟨[78], [("Game")], [], []⟩ ⟨[], [], [], 0⟩).apps = [] :=
  no_purchase_options_recorded_skip 77 ⟨[78], [("Game")], [], []⟩
    ⟨[], [], [], 0⟩ rfl

/-- Claim C9.  Whatever the worker's outcome, the discovered links are
appended to the frontier (`main.rs:216-218` runs before the price step); in
particular crawling 77, a page with no purchase options linking to 78,
enqueues 78 while 77 ends in the skip list and not in the results. -/
theorem links_enqueued_even_on_skip :
    (∀ (id : AppId) (page : Page) (s : CoordState),
      (applyWorker id page s).ids = s.ids ++ page.links) ∧
    ((applyWorker 77 ⟨[78], [("Game")], [], []⟩ ⟨[], [], [], 0⟩).ids = [78] ∧
     workerOutcome 77 ⟨[78], [("Game")], [], []⟩ = WorkerResult.skipped ∧
     (applyWorker 77 ⟨[78], [("Game")], [], []⟩ ⟨[], [], [], 0⟩).should_not_crawl
       = [77] ∧
     (applyWorker 77 ⟨[78], [("Game")], [], []⟩ ⟨[], [], [], 0⟩).apps = []) := by
  constructor
  · intro id page s
    unfold applyWorker
    rcases h : workerOutcome id page with a | _ | _ <;> simp
  · with_unfolding_all decide

/-- Claim C10.  `parse_price` is a total function on strings (every branch
ends in a value, the failing parse falling back to `0.0`), and its value is
never negative: the rewriting removes every minus sign before parsing, and
a nonnegative mantissa scaled by a power of ten is nonnegative. -/
theorem parse_price_total_nonneg : ∀ s : String, 0 ≤ parse_price s := by
  intro s
  unfold parse_price
  by_cases hf : freeText (rustToLowercase s) = true
  · rw [if_pos hf]
  · rw [if_neg hf]
    cases h : rustParseF32Chars (normalizePriceText (rustToLowercase s).toList) with
    | none => simp
    | some q =>
      simp only [Option.getD_some]
      exact rustParseF32Chars_nonneg (minus_notMem_normalize _) h
